import Mathlib

/-!
Verification development for the airflowreceiver scrape-and-resilience core.

Shallow embedding conventions:
* `time.Duration` values and float64 quantities are modelled as `ℚ` (the Go
  float computations are modelled exactly over the rationals; IEEE rounding
  and the final nanosecond truncation are abstracted).
* Go errors are modelled as `String` values (`Option String`: `none` = nil).
* The `context.Context` passed to `RetryWithBackoff` is modelled as never
  cancelled; logging calls have no effect on the modelled state and are
  dropped.
* Go maps used as lookup tables are modelled as association lists; a map
  keyed by `name + tags` is modelled as keyed by the pair of the name and
  the insert-ordered tag list.
-/

namespace Airflow

/-! ## Retry executor (internal/scraper/retry.go) -/

/-- `RetryConfig` from retry.go: max attempts, initial/max backoff interval
(durations as ℚ seconds) and the backoff multiplier. -/
structure RetryConfig where
  maxAttempts : Nat
  initialInterval : ℚ
  maxInterval : ℚ
  multiplier : ℚ
  deriving DecidableEq, Repr

/-- `DefaultRetryConfig()` from retry.go: 3 attempts, 1s initial, 10s max,
multiplier 2.0. -/
def DefaultRetryConfig : RetryConfig :=
  { maxAttempts := 3, initialInterval := 1, maxInterval := 10, multiplier := 2 }

/-- Observable events of one `RetryWithBackoff` execution: a backoff sleep of
a given duration, or an invocation of `fn` (0-based attempt index). -/
inductive RetryEvent where
  | sleep (d : ℚ)
  | call (attempt : Nat)
  deriving DecidableEq, Repr

/-- The backoff computed at the top of the loop body for `attempt > 0`
(retry.go lines 37-40): `initialInterval * multiplier^(attempt-1)`, capped
at `maxInterval`. -/
def backoffFor (cfg : RetryConfig) (attempt : Nat) : ℚ :=
  let backoff := cfg.initialInterval * cfg.multiplier ^ (attempt - 1)
  if backoff > cfg.maxInterval then cfg.maxInterval else backoff

/-- The `for attempt := 0; attempt < cfg.MaxAttempts; attempt++` loop of
`RetryWithBackoff` (retry.go lines 34-69), with `fuel` the number of
remaining iterations. `fn i` is the error returned by the i-th invocation
of the operation (`none` = success). Returns the final error together with
the trace of sleeps and invocations. -/
def retryLoop (cfg : RetryConfig) (fn : Nat → Option String) :
    Nat → Nat → Option String → List RetryEvent → Option String × List RetryEvent
  | _, 0, lastErr, trace => (lastErr, trace)
  | attempt, fuel + 1, _, trace =>
    let trace := if attempt > 0 then trace ++ [RetryEvent.sleep (backoffFor cfg attempt)]
                 else trace
    let trace := trace ++ [RetryEvent.call attempt]
    match fn attempt with
    | none => (none, trace)
    | some e => retryLoop cfg fn (attempt + 1) fuel (some e) trace

/-- `RetryWithBackoff(ctx, cfg, logger, operation, fn)` (retry.go lines
31-77), with the context modelled as never cancelled and the logger dropped;
`op` is the operation name, which the Go code uses only in log messages.
Returns the error result together with the event trace. -/
def RetryWithBackoff (cfg : RetryConfig) (op : String) (fn : Nat → Option String) :
    Option String × List RetryEvent :=
  let _ := op
  retryLoop cfg fn 0 cfg.maxAttempts none []

/-- Number of invocations of the operation in a trace. -/
def callCount (tr : List RetryEvent) : Nat :=
  (tr.filter fun e => match e with | .call _ => true | _ => false).length

/-- The sleeps of a trace, in order. -/
def sleepsOf (tr : List RetryEvent) : List ℚ :=
  tr.filterMap fun e => match e with | .sleep d => some d | _ => none

/-! ## String helpers used by the StatsD parser

The Go code uses `strings.Split`, `strings.SplitN(·, ·, 2)`,
`strings.TrimSpace`, `strings.HasPrefix` and `strconv.ParseFloat`. These are
modelled below by structurally recursive functions on `List Char`. -/

/-- `strings.Split(s, c)` for a one-character separator: splits into the
chunks between occurrences of `c` (always at least one chunk). -/
def splitOnChar (c : Char) : List Char → List (List Char)
  | [] => [[]]
  | x :: rest =>
    let r := splitOnChar c rest
    if x = c then [] :: r
    else
      match r with
      | [] => [[x]]
      | y :: ys => (x :: y) :: ys

/-- `strings.SplitN(s, c, 2)` for a one-character separator: at most two
chunks, splitting at the first occurrence of `c`. -/
def splitN2Char (c : Char) : List Char → List (List Char)
  | [] => [[]]
  | x :: rest =>
    if x = c then [[], rest]
    else
      match splitN2Char c rest with
      | [] => [[x]]
      | y :: ys => (x :: y) :: ys

/-- `strings.TrimSpace`: strip leading and trailing whitespace. (Go trims
Unicode white space; this model trims ASCII whitespace, which agrees on the
StatsD wire format.) -/
def trimChars (cs : List Char) : List Char :=
  ((cs.dropWhile Char.isWhitespace).reverse.dropWhile Char.isWhitespace).reverse

/-- Value of a digit string, most significant first. -/
def digitsToNat (cs : List Char) : Nat :=
  cs.foldl (fun acc c => acc * 10 + (c.toNat - '0'.toNat)) 0

/-- Exponent suffix of `strconv.ParseFloat` (after an `e`/`E`): optional
sign, then digits to the end of the string. -/
def parseExpPart (m : ℚ) (cs : List Char) : Option ℚ :=
  let (esign, cs) :=
    match cs with
    | '+' :: rest => (true, rest)
    | '-' :: rest => (false, rest)
    | _ => (true, cs)
  let ds := cs.takeWhile Char.isDigit
  let rest := cs.dropWhile Char.isDigit
  if ds.isEmpty ∨ ¬ rest.isEmpty then none
  else some (if esign then m * 10 ^ digitsToNat ds else m / 10 ^ digitsToNat ds)

/-- `strconv.ParseFloat(s, 64)` modelled exactly over ℚ for decimal literals
(optional sign, integer part, optional fraction, optional `e`/`E` exponent);
the special forms Go also accepts (inf/NaN, hexadecimal floats, digit-group
underscores) are not modelled, and IEEE rounding is abstracted. -/
def parseFloatChars (cs : List Char) : Option ℚ :=
  let (sign, cs) :=
    match cs with
    | '+' :: rest => ((1 : ℚ), rest)
    | '-' :: rest => ((-1 : ℚ), rest)
    | _ => ((1 : ℚ), cs)
  let ipart := cs.takeWhile Char.isDigit
  let cs := cs.dropWhile Char.isDigit
  let (fpart, cs) :=
    match cs with
    | '.' :: rest => (rest.takeWhile Char.isDigit, rest.dropWhile Char.isDigit)
    | _ => (([] : List Char), cs)
  if ipart.isEmpty ∧ fpart.isEmpty then none
  else
    let mantissa : ℚ :=
      sign * ((digitsToNat ipart : ℚ) + (digitsToNat fpart : ℚ) / (10 : ℚ) ^ fpart.length)
    match cs with
    | [] => some mantissa
    | 'e' :: rest => parseExpPart mantissa rest
    | 'E' :: rest => parseExpPart mantissa rest
    | _ => none

/-! ## StatsD aggregator (src/unnamed/part_001, `StatsDScraper`) -/

/-- `StatsDMetric` (part_001 lines 28-38). Numeric fields over ℚ/ℤ; `Tags`
is modelled as the insert-ordered association list built by the parser. -/
structure StatsDMetric where
  name : String
  value : ℚ
  type : String
  sampleRate : ℚ
  tags : List (String × String)
  count : ℤ
  sum : ℚ
  min : ℚ
  max : ℚ
  deriving DecidableEq, Repr

/-- Assignment `tags[k] = v` on a Go map modelled on the association list:
overwrite in place if the key exists, else append. -/
def tagsInsert (tags : List (String × String)) (k v : String) : List (String × String) :=
  if tags.any (fun p => p.1 = k) then
    tags.map (fun p => if p.1 = k then (k, v) else p)
  else tags ++ [(k, v)]

/-- One iteration of the `for i := 2; i < len(parts); i++` loop of
`parseStatsDLine` (part_001 lines 146-160): an `@` segment sets the sample
rate if it parses, a `#` segment merges `k:v` tag pairs, anything else is
ignored. -/
def applySegment (m : StatsDMetric) (seg : List Char) : StatsDMetric :=
  match seg with
  | '@' :: rateCs =>
    match parseFloatChars rateCs with
    | some rate => { m with sampleRate := rate }
    | none => m
  | '#' :: tagCs =>
    { m with
      tags := (splitOnChar ',' tagCs).foldl
        (fun tgs pair =>
          match splitN2Char ':' pair with
          | [k, v] => tagsInsert tgs (String.mk k) (String.mk v)
          | _ => tgs)
        m.tags }
  | _ => m

/-- `StatsDScraper.parseStatsDLine` (part_001 lines 122-163) on the
character list of the line. Returns `none` for malformed lines (fewer than
two `|` segments, missing `name:value`, unparseable value). -/
def parseLineChars (line : List Char) : Option StatsDMetric :=
  match splitOnChar '|' line with
  | p0 :: p1 :: rest =>
    match splitN2Char ':' p0 with
    | [nm, vs] =>
      match parseFloatChars vs with
      | none => none
      | some value =>
        let base : StatsDMetric :=
          { name := String.mk nm, value := value, type := String.mk p1,
            sampleRate := 1, tags := [], count := 0, sum := 0, min := 0, max := 0 }
        some (rest.foldl applySegment base)
    | _ => none
  | _ => none

/-- `parseStatsDLine` on a `String`. -/
def parseStatsDLine (line : String) : Option StatsDMetric :=
  parseLineChars line.data

/-- The parse result of a plain (tagless, rate-less) counter line
`name:v|c`: value v, sample rate defaulted to 1, all aggregation fields at
their zero values. -/
def counterMetric (name : String) (v : ℚ) : StatsDMetric :=
  { name := name, value := v, type := "c", sampleRate := 1, tags := [],
    count := 0, sum := 0, min := 0, max := 0 }

/-- The parse result of a plain timer line `name:v|ms`. -/
def timerMetric (name : String) (v : ℚ) : StatsDMetric :=
  { name := name, value := v, type := "ms", sampleRate := 1, tags := [],
    count := 0, sum := 0, min := 0, max := 0 }

/-- The aggregation-table key. The Go code builds the map key as the metric
name followed by `,k=v` for each tag in (unordered) map iteration order
(part_001 lines 169-172); it is modelled as the pair of the name and the
insert-ordered tag list. -/
abbrev StatsKey := String × List (String × String)

def aggKey (m : StatsDMetric) : StatsKey := (m.name, m.tags)

/-- The aggregation table `s.metrics`, modelled as an association list. -/
abbrev StatsTable := List (StatsKey × StatsDMetric)

/-- Lookup `s.metrics[key]`. -/
def tableFind (t : StatsTable) (k : StatsKey) : Option StatsDMetric :=
  match t.find? (fun p => p.1 == k) with
  | some p => some p.2
  | none => none

/-- In-place update of the cell at key `k` (the Go cell is a pointer mutated
in place). -/
def tableUpdate (t : StatsTable) (k : StatsKey) (c : StatsDMetric) : StatsTable :=
  t.map (fun p => if p.1 == k then (k, c) else p)

/-- `StatsDScraper.aggregate` (part_001 lines 165-204). A first observation
inserts a fresh cell carrying the raw value (note: not divided by the sample
rate) with count 1 and sum/min/max equal to the value; on an existing cell,
a counter adds `value / sampleRate`, a gauge overwrites the value, and a
timer/histogram bumps count/sum/min/max. The fresh cell's `SampleRate` field
is left at the Go zero value 0. -/
def aggregate (t : StatsTable) (m : StatsDMetric) : StatsTable :=
  let key := aggKey m
  match tableFind t key with
  | none =>
    t ++ [(key,
      { name := m.name, value := m.value, type := m.type, sampleRate := 0,
        tags := m.tags, count := 1, sum := m.value, min := m.value, max := m.value })]
  | some existing =>
    let updated :=
      if m.type = "c" then
        { existing with value := existing.value + m.value / m.sampleRate }
      else if m.type = "g" then
        { existing with value := m.value }
      else if m.type = "ms" ∨ m.type = "h" then
        { existing with
          count := existing.count + 1,
          sum := existing.sum + m.value,
          min := if m.value < existing.min then m.value else existing.min,
          max := if m.value > existing.max then m.value else existing.max }
      else existing
    tableUpdate t key updated

/-- The per-line body of the loop in `parseAndAggregate` (part_001 lines
111-119): skip empty lines and lines that fail to parse, aggregate the rest. -/
def feedLineChars (t : StatsTable) (line : List Char) : StatsTable :=
  if line = [] then t
  else
    match parseLineChars line with
    | some m => aggregate t m
    | none => t

/-- The loop of `parseAndAggregate` over an already-split list of lines. -/
def parseAndAggregateLines (t : StatsTable) (lines : List (List Char)) : StatsTable :=
  lines.foldl feedLineChars t

/-- `StatsDScraper.parseAndAggregate` (part_001 lines 109-120): trim the
datagram, split on newlines, and feed each line. -/
def parseAndAggregate (t : StatsTable) (data : String) : StatsTable :=
  parseAndAggregateLines t (splitOnChar '\n' (trimChars data.data))

/-- `feedLineChars` on a `String` line. -/
def feedLine (t : StatsTable) (line : String) : StatsTable :=
  feedLineChars t line.data

/-! ## Metrics builder (internal/scraper/metrics_builder.go)

A `MetricsBuilder` accumulates data points in an underlying `pmetric.Metrics`
collection; each `Record*` call appends points and `Emit` returns the
accumulated collection. The collection is modelled as the list of recorded
points; wall-clock timestamps (`time.Time` arguments) are abstracted away. -/

/-- One recorded data point. `counter` models `RecordGenericCounter` (whose
value is the Go `int64(·)` truncation of the cell value) and `gauge` models
a single gauge data point as appended by `RecordGenericGauge` and by each of
the three derived points of `RecordGenericTimer`. `opaquePoint` stands for
any point recorded by the remaining `Record*` helpers, identified by a
serial payload. -/
inductive MPoint where
  | counter (name : String) (tags : List (String × String)) (value : ℤ)
  | gauge (name : String) (tags : List (String × String)) (value : ℚ)
  | opaquePoint (payload : ℕ)
  deriving DecidableEq, Repr

/-- The builder's accumulated collection. -/
abbrev MetricsBuilder := List MPoint

/-- `NewMetricsBuilder()` (metrics_builder.go lines 19-35): a fresh, empty
collection. -/
def NewMetricsBuilder : MetricsBuilder := []

/-- `MetricsBuilder.Emit` (metrics_builder.go lines 624-627): returns the
accumulated collection without clearing it. -/
def Emit (mb : MetricsBuilder) : MetricsBuilder := mb

/-- `int64(x)` conversion of a float value: truncation toward zero. -/
def truncQ (q : ℚ) : ℤ := if 0 ≤ q then ⌊q⌋ else ⌈q⌉

/-- The points recorded for one aggregation cell by the loop body of
`StatsDScraper.Scrape` (part_001 lines 210-222): a counter cell records its
(truncated) value, a gauge cell its value, and a timer/histogram cell with
positive count records `.avg`/`.min`/`.max` derived gauge points
(`RecordGenericTimer`, metrics_builder.go lines 578-622). -/
def snapshotCell (c : StatsDMetric) : List MPoint :=
  if c.type = "c" then [MPoint.counter c.name c.tags (truncQ c.value)]
  else if c.type = "g" then [MPoint.gauge c.name c.tags c.value]
  else if c.type = "ms" ∨ c.type = "h" then
    if 0 < c.count then
      [MPoint.gauge (c.name ++ ".avg") c.tags (c.sum / (c.count : ℚ)),
       MPoint.gauge (c.name ++ ".min") c.tags c.min,
       MPoint.gauge (c.name ++ ".max") c.tags c.max]
    else []
  else []

/-- All points recorded by one pass of the `Scrape` loop over the table. -/
def snapshotPoints (t : StatsTable) : List MPoint :=
  t.flatMap (fun p => snapshotCell p.2)

/-- `StatsDScraper.Scrape` (part_001 lines 206-226): under a read lock,
record one point (set) per cell into the builder and return `mb.Emit()`.
Result: (table afterwards, builder afterwards, emitted collection). -/
def statsdScrape (t : StatsTable) (mb : MetricsBuilder) :
    StatsTable × MetricsBuilder × MetricsBuilder :=
  let mb := mb ++ snapshotPoints t
  (t, mb, Emit mb)

/-! ## Scraper health (src/unnamed/part_001, `ScraperHealth`) -/

/-- `ScraperHealth` (part_001 lines 252-275). Durations and times are ℤ
nanoseconds; `lastError` is `none` for nil. The mutex is dropped (all
mutation is the sequential `RecordScrape`). -/
structure ScraperHealth where
  scraperType : String
  totalScrapes : ℤ
  successfulScrapes : ℤ
  failedScrapes : ℤ
  lastScrapeDuration : ℤ
  avgScrapeDuration : ℤ
  maxScrapeDuration : ℤ
  lastError : Option String
  lastErrorTime : ℤ
  consecutiveErrors : ℤ
  lastSuccessTime : ℤ
  healthy : Bool
  deriving DecidableEq, Repr

/-- `NewScraperHealth` (part_001 lines 277-283): zero counters, `healthy`
true. -/
def NewScraperHealth (scraperType : String) : ScraperHealth :=
  { scraperType := scraperType, totalScrapes := 0, successfulScrapes := 0,
    failedScrapes := 0, lastScrapeDuration := 0, avgScrapeDuration := 0,
    maxScrapeDuration := 0, lastError := none, lastErrorTime := 0,
    consecutiveErrors := 0, lastSuccessTime := 0, healthy := true }

/-- `ScraperHealth.RecordScrape` (part_001 lines 286-325), with `now` the
value of `time.Now()`. The Go duration average uses `int64` division, which
truncates toward zero (`Int.tdiv`). -/
def RecordScrape (h : ScraperHealth) (now : ℤ) (duration : ℤ) (err : Option String) :
    ScraperHealth :=
  let h := { h with totalScrapes := h.totalScrapes + 1, lastScrapeDuration := duration }
  match err with
  | some e =>
    let h := { h with
      failedScrapes := h.failedScrapes + 1,
      consecutiveErrors := h.consecutiveErrors + 1,
      lastError := some e, lastErrorTime := now }
    if h.consecutiveErrors ≥ 3 then { h with healthy := false } else h
  | none =>
    let h := { h with
      successfulScrapes := h.successfulScrapes + 1,
      consecutiveErrors := 0, lastSuccessTime := now, healthy := true }
    let h :=
      if h.avgScrapeDuration = (0 : ℤ) then { h with avgScrapeDuration := duration }
      else { h with avgScrapeDuration := Int.tdiv (h.avgScrapeDuration * 9 + duration) 10 }
    if duration > h.maxScrapeDuration then { h with maxScrapeDuration := duration } else h

/-! ## Incremental log scraper (internal/scraper/log_scraper.go) -/

/-- One decoded row of the `log` table (log_scraper.go lines 96-105).
Timestamps are ℤ; the best-effort JSON decode of `extra` is abstracted as
an already-decoded attribute list (it does not influence the watermark). -/
structure LogRow where
  id : ℤ
  dttm : ℤ
  dagId : String
  taskId : String
  event : String
  executionDate : ℤ
  owner : String
  extra : List (String × String)
  deriving DecidableEq, Repr

/-- Sort rows ascending by `id` (models `ORDER BY id ASC`). -/
def sortByIdAsc (l : List LogRow) : List LogRow :=
  List.insertionSort (fun a b : LogRow => a.id ≤ b.id) l

instance : IsTotal LogRow (fun a b : LogRow => a.id ≤ b.id) :=
  ⟨fun a b => le_total a.id b.id⟩

instance : IsTrans LogRow (fun a b : LogRow => a.id ≤ b.id) :=
  ⟨fun _ _ _ h1 h2 => le_trans h1 h2⟩

/-- A log row with a given id and defaulted payload fields, for concrete
examples. -/
def sampleLogRow (k : ℤ) : LogRow :=
  { id := k, dttm := 0, dagId := "example_dag", taskId := "", event := "cli_task_run",
    executionDate := 0, owner := "airflow", extra := [] }

/-- The SQL query of `LogScraper.Scrape` (log_scraper.go lines 80-86) over a
modelled table state `db`:
`SELECT ... FROM log WHERE id > $1 ORDER BY id ASC LIMIT 1000`. -/
def logQuery (db : List LogRow) (wm : ℤ) : List LogRow :=
  (sortByIdAsc (db.filter (fun r => r.id > wm))).take 1000

/-- The mutable scraper state: `lastScrapedLogID` (the watermark). -/
structure LogScraperState where
  lastScrapedLogID : ℤ
  deriving DecidableEq, Repr

/-- `NewLogScraper` (log_scraper.go lines 38-45): watermark initialized to
0. -/
def NewLogScraper : LogScraperState := { lastScrapedLogID := 0 }

/-- The watermark update of the row loop (log_scraper.go lines 136-139):
`if id > s.lastScrapedLogID { s.lastScrapedLogID = id }` for each row. -/
def advanceWatermark (wm : ℤ) (rows : List LogRow) : ℤ :=
  rows.foldl (fun wm r => if r.id > wm then r.id else wm) wm

/-- `LogScraper.Scrape` (log_scraper.go lines 76-153) against a modelled
table state: run the bounded range query, emit one record per row (the rows
themselves, since every decoded row is recorded), and advance the
watermark. Returns (new state, emitted rows). -/
def logScrape (db : List LogRow) (s : LogScraperState) : LogScraperState × List LogRow :=
  let rows := logQuery db s.lastScrapedLogID
  ({ lastScrapedLogID := advanceWatermark s.lastScrapedLogID rows }, rows)

/-! ## REST fan-out (src/unnamed/part_001 lines 477-587, `scrapeDAGMetrics`) -/

/-- A DAG run as consumed by `scrapeDAGMetrics`. `startDate`/`endDate` are
`none` when the Go `time.Time` is the zero time (`IsZero()`), otherwise ℤ
nanoseconds. -/
structure DAGRun where
  dagId : String
  dagRunId : String
  state : String
  runType : String
  externalTrigger : Bool
  startDate : Option ℤ
  endDate : Option ℤ
  deriving DecidableEq, Repr

/-- A recorded DAG-run duration point
(`RecordDAGRunDurationWithDimensions`): duration in ℚ seconds plus the full
dimension set. -/
structure DurationRecord where
  duration : ℚ
  dagId : String
  dagRunId : String
  runType : String
  state : String
  externalTrigger : Bool
  deriving DecidableEq, Repr

/-- The duration record emitted for one run by part_001 lines 527-541, if
any: only for `success`/`failed` runs with both timestamps present and a
positive duration. -/
def runDurationRecord (run : DAGRun) : List DurationRecord :=
  if (run.state = "success" ∨ run.state = "failed") then
    match run.endDate, run.startDate with
    | some e, some s =>
      let duration : ℚ := ((e - s : ℤ) : ℚ) / 1000000000
      if duration > 0 then
        [{ duration := duration, dagId := run.dagId, dagRunId := run.dagRunId,
           runType := run.runType, state := run.state,
           externalTrigger := run.externalTrigger }]
      else []
    | _, _ => []
  else []

/-- First pass over one DAG's runs (part_001 lines 515-542): skip runs with
an empty `DAGRunID`; count the rest by state (returned as the list of
counted states, from which `runsByState` counts are derived) and record
duration points. -/
def processRunsPass1 (runs : List DAGRun) : List String × List DurationRecord :=
  runs.foldl
    (fun acc run =>
      if run.dagRunId = "" then acc
      else (acc.1 ++ [run.state], acc.2 ++ runDurationRecord run))
    ([], [])

/-- The per-state count `runsByState[state]` produced by the first pass. -/
def runsByStateCount (runs : List DAGRun) (state : String) : ℕ :=
  (processRunsPass1 runs).1.count state

/-- `time.Since(run.StartDate) < 5*time.Minute` with `now` the current time
(ℤ nanoseconds); the Go zero time makes the elapsed time astronomically
large, hence `false`. -/
def withinFiveMinutes (now : ℤ) (startDate : Option ℤ) : Bool :=
  match startDate with
  | some t => decide (now - t < 300000000000)
  | none => false

/-- Second pass over one DAG's runs (part_001 lines 549-585): skip runs with
an empty `DAGRunID`; for running or recently started runs, fetch the run's
task instances. Returns the `(dagId, dagRunId)` pairs for which
`getTaskInstances` is invoked (task records are emitted only for fetched
runs). -/
def processRunsPass2 (now : ℤ) (runs : List DAGRun) : List (String × String) :=
  runs.foldl
    (fun acc run =>
      if run.dagRunId = "" then acc
      else if run.state = "running" ∨ withinFiveMinutes now run.startDate then
        acc ++ [(run.dagId, run.dagRunId)]
      else acc)
    []

/-- A well-formed DAG run for concrete examples. -/
def sampleRun (runId state : String) : DAGRun :=
  { dagId := "example_dag", dagRunId := runId, state := state,
    runType := "scheduled", externalTrigger := false,
    startDate := some 0, endDate := some 1000000000 }

/-! ## REST adapter builder lifecycle (src/unnamed/part_003) -/

/-- `NewRESTAPIScraper` (part_003 lines 38-47) creates the adapter's single
`MetricsBuilder` once; only that builder state is modelled here. -/
def NewRESTAPIScraperMB : MetricsBuilder := NewMetricsBuilder

/-- `RESTAPIScraper.Scrape` (part_003 lines 54-66) at the builder level:
`scrapeComprehensive` appends the cycle's points (`cyclePoints`, determined
by the HTTP responses, here a parameter), `s.mb.Emit()` yields the
accumulated collection, and `health.EmitMetrics` then appends the health
points (`healthPoints`) to the same builder; the returned `pmetric.Metrics`
is that same underlying collection. Returns (builder afterwards, emitted
collection). -/
def restScrape (mb : MetricsBuilder) (cyclePoints healthPoints : List MPoint) :
    MetricsBuilder × MetricsBuilder :=
  let mb := mb ++ cyclePoints
  let emitted := Emit mb
  let mb := mb ++ healthPoints
  (mb, emitted ++ healthPoints)

/-- Builder state after a sequence of scrape cycles starting from adapter
construction. -/
def restCycleFold (cycles : List (List MPoint × List MPoint)) : MetricsBuilder :=
  cycles.foldl (fun mb c => (restScrape mb c.1 c.2).1) NewRESTAPIScraperMB

/-- The trace produced by the retry loop when every attempt fails, starting
at a given attempt index with `fuel` iterations left (used to give the loop
a closed form). -/
def expectedTrace (cfg : RetryConfig) : Nat → Nat → List RetryEvent
  | _, 0 => []
  | attempt, fuel + 1 =>
    (if 0 < attempt then [RetryEvent.sleep (backoffFor cfg attempt)] else [])
      ++ RetryEvent.call attempt :: expectedTrace cfg (attempt + 1) fuel

/-! ## Theorems -/

theorem backoffFor_eq_min (cfg : RetryConfig) (attempt : Nat) :
    backoffFor cfg attempt =
      min (cfg.initialInterval * cfg.multiplier ^ (attempt - 1)) cfg.maxInterval := by
  unfold backoffFor
  rcases le_or_lt (cfg.initialInterval * cfg.multiplier ^ (attempt - 1)) cfg.maxInterval with h | h
  · simp [not_lt.2 h, min_eq_left h]
  · simp [h, min_eq_right h.le]

theorem callCount_append (l1 l2 : List RetryEvent) :
    callCount (l1 ++ l2) = callCount l1 + callCount l2 := by
  simp [callCount, List.filter_append]

theorem callCount_sleep_cons (d : ℚ) (l : List RetryEvent) :
    callCount (RetryEvent.sleep d :: l) = callCount l := by
  simp [callCount]

theorem callCount_call_cons (i : Nat) (l : List RetryEvent) :
    callCount (RetryEvent.call i :: l) = callCount l + 1 := by
  simp [callCount, List.filter_cons]

theorem sleepsOf_append (l1 l2 : List RetryEvent) :
    sleepsOf (l1 ++ l2) = sleepsOf l1 ++ sleepsOf l2 := by
  simp [sleepsOf]

theorem sleepsOf_sleep_cons (d : ℚ) (l : List RetryEvent) :
    sleepsOf (RetryEvent.sleep d :: l) = d :: sleepsOf l := by
  simp [sleepsOf]

theorem sleepsOf_call_cons (i : Nat) (l : List RetryEvent) :
    sleepsOf (RetryEvent.call i :: l) = sleepsOf l := by
  simp [sleepsOf]

theorem retryLoop_fail (cfg : RetryConfig) (fn : Nat → Option String)
    (hf : ∀ i, (fn i).isSome = true) :
    ∀ (fuel attempt : Nat) (lastErr : Option String) (trace : List RetryEvent),
      retryLoop cfg fn attempt fuel lastErr trace =
        ((if fuel = 0 then lastErr else fn (attempt + fuel - 1)),
          trace ++ expectedTrace cfg attempt fuel) := by
  intro fuel
  induction fuel with
  | zero => intro attempt lastErr trace; simp [retryLoop, expectedTrace]
  | succ fuel ih =>
    intro attempt lastErr trace
    obtain ⟨e, he⟩ := Option.isSome_iff_exists.mp (hf attempt)
    rw [retryLoop, he]
    show retryLoop cfg fn (attempt + 1) fuel (some e)
        ((if attempt > 0 then trace ++ [RetryEvent.sleep (backoffFor cfg attempt)] else trace)
          ++ [RetryEvent.call attempt]) =
      (if fuel + 1 = 0 then lastErr else fn (attempt + (fuel + 1) - 1),
        trace ++ expectedTrace cfg attempt (fuel + 1))
    rw [ih (attempt + 1)]
    refine Prod.ext ?_ ?_
    · show (if fuel = 0 then some e else fn (attempt + 1 + fuel - 1)) = _
      rcases Nat.eq_zero_or_pos fuel with h0 | hpos
      · subst h0; simpa using he.symm
      · have h1 : fuel ≠ 0 := Nat.pos_iff_ne_zero.mp hpos
        simp only [h1, if_false, Nat.succ_ne_zero]
        congr 1
        omega
    · show _ ++ expectedTrace cfg (attempt + 1) fuel = _
      simp only [expectedTrace]
      rcases Nat.eq_zero_or_pos attempt with h0 | hpos
      · subst h0; simp
      · simp [hpos, Nat.pos_iff_ne_zero.mp hpos, List.append_assoc]

theorem callCount_expectedTrace (cfg : RetryConfig) :
    ∀ (fuel attempt : Nat), callCount (expectedTrace cfg attempt fuel) = fuel := by
  intro fuel
  induction fuel with
  | zero => intro attempt; simp [expectedTrace, callCount]
  | succ fuel ih =>
    intro attempt
    rw [expectedTrace, callCount_append, callCount_call_cons, ih (attempt + 1)]
    rcases Nat.eq_zero_or_pos attempt with h0 | hpos
    · subst h0; simp [callCount]
    · simp [hpos, callCount]

theorem sleepsOf_expectedTrace (cfg : RetryConfig) :
    ∀ (fuel attempt : Nat), 0 < attempt →
      sleepsOf (expectedTrace cfg attempt fuel) =
        (List.range fuel).map (fun j => backoffFor cfg (attempt + j)) := by
  intro fuel
  induction fuel with
  | zero => intro attempt _; simp [expectedTrace, sleepsOf]
  | succ fuel ih =>
    intro attempt hpos
    rw [expectedTrace, List.range_succ_eq_map]
    simp only [hpos, if_true]
    rw [List.singleton_append, sleepsOf_sleep_cons, sleepsOf_call_cons,
      ih (attempt + 1) (Nat.succ_pos attempt)]
    simp only [List.map_cons, List.map_map, Nat.add_zero]
    congr 1
    refine List.map_congr_left ?_
    intro j _
    simp only [Function.comp_apply]
    congr 1
    omega

/-- C3: for every retry policy with maxAttempts = N ≥ 1, `RetryWithBackoff`
invokes a deterministically failing operation exactly N times; the wait
inserted before the k-th attempt (k ≥ 2, i.e. the (k-2)-nd sleep) equals
min(initialInterval * multiplier^(k-2), maxInterval); and no wait precedes
the first attempt (the trace starts with the first invocation). -/
theorem retry_attempt_count_and_backoff_schedule
    (cfg : RetryConfig) (op : String) (fn : Nat → Option String)
    (hN : 1 ≤ cfg.maxAttempts) (hfail : ∀ i, (fn i).isSome = true) :
    callCount (RetryWithBackoff cfg op fn).2 = cfg.maxAttempts ∧
    sleepsOf (RetryWithBackoff cfg op fn).2 =
      (List.range (cfg.maxAttempts - 1)).map
        (fun j => min (cfg.initialInterval * cfg.multiplier ^ j) cfg.maxInterval) ∧
    (RetryWithBackoff cfg op fn).2.head? = some (RetryEvent.call 0) := by
  obtain ⟨m, hm⟩ : ∃ m, cfg.maxAttempts = m + 1 := ⟨cfg.maxAttempts - 1, by omega⟩
  have htr : (RetryWithBackoff cfg op fn).2 = expectedTrace cfg 0 cfg.maxAttempts := by
    unfold RetryWithBackoff
    rw [retryLoop_fail cfg fn hfail]
    simp
  have hsplit : expectedTrace cfg 0 (m + 1) = RetryEvent.call 0 :: expectedTrace cfg 1 m := by
    simp [expectedTrace]
  refine ⟨?_, ?_, ?_⟩
  · rw [htr, callCount_expectedTrace]
  · rw [htr, hm]
    simp only [Nat.add_sub_cancel]
    rw [hsplit, sleepsOf_call_cons, sleepsOf_expectedTrace cfg m 1 Nat.one_pos]
    refine List.map_congr_left ?_
    intro j _
    rw [backoffFor_eq_min]
    have hj : 1 + j - 1 = j := by omega
    rw [hj]
  · rw [htr, hm, hsplit]
    rfl

/-- C3 witness: the default policy (3 attempts, 1s initial, 10s cap,
multiplier 2) against an operation that always fails. -/
theorem retry_attempt_count_and_backoff_schedule_witness :
    1 ≤ DefaultRetryConfig.maxAttempts ∧
    (callCount (RetryWithBackoff DefaultRetryConfig "query dag runs"
        (fun _ => some "context deadline exceeded")).2 = DefaultRetryConfig.maxAttempts ∧
      sleepsOf (RetryWithBackoff DefaultRetryConfig "query dag runs"
          (fun _ => some "context deadline exceeded")).2 =
        (List.range (DefaultRetryConfig.maxAttempts - 1)).map
          (fun j => min (DefaultRetryConfig.initialInterval * DefaultRetryConfig.multiplier ^ j)
            DefaultRetryConfig.maxInterval) ∧
      (RetryWithBackoff DefaultRetryConfig "query dag runs"
          (fun _ => some "context deadline exceeded")).2.head? = some (RetryEvent.call 0)) :=
  ⟨by norm_num [DefaultRetryConfig],
    retry_attempt_count_and_backoff_schedule DefaultRetryConfig "query dag runs"
      (fun _ => some "context deadline exceeded")
      (by norm_num [DefaultRetryConfig]) (fun _ => rfl)⟩

/-- C1 (evaluation at the failing input): `RetryWithBackoff` has no
non-transient classification at all, so an operation failing with the
authentication error produced for HTTP 401 (part_003 line 96) is attempted
all 3 times of the default policy, with backoff sleeps of 1s and 2s in
between, not exactly once — contradicting the code's own comment at
part_003 line 93 ("Don't retry authentication failures"). -/
theorem retry_auth_error_consumes_all_attempts :
    RetryWithBackoff DefaultRetryConfig "GET /api/v1/dags"
        (fun _ => some "authentication failed: status code 401") =
      (some "authentication failed: status code 401",
        [RetryEvent.call 0, RetryEvent.sleep 1, RetryEvent.call 1,
          RetryEvent.sleep 2, RetryEvent.call 2]) ∧
    callCount (RetryWithBackoff DefaultRetryConfig "GET /api/v1/dags"
        (fun _ => some "authentication failed: status code 401")).2 ≠ 1 := by
  constructor
  · norm_num [RetryWithBackoff, retryLoop, backoffFor, DefaultRetryConfig]
  · norm_num [RetryWithBackoff, retryLoop, backoffFor, DefaultRetryConfig, callCount]

/-- C9 counterexample: on exhaustion the returned error is the bare last
error; it is not annotated with the operation name (nor with the attempt
count): for operation "GET /api/v1/dags" and constant error
"connection refused", the result is exactly "connection refused", which
contains neither the operation name nor the digit 3. -/
theorem retry_exhaustion_error_not_annotated :
    (RetryWithBackoff DefaultRetryConfig "GET /api/v1/dags"
        (fun _ => some "connection refused")).1 = some "connection refused" ∧
    ¬ ("GET /api/v1/dags".data <:+: "connection refused".data) ∧
    '3' ∉ "connection refused".data := by
  refine ⟨?_, by decide, by decide⟩
  norm_num [RetryWithBackoff, retryLoop, backoffFor, DefaultRetryConfig]

/-- C9 (amended): when all maxAttempts invocations fail, `RetryWithBackoff`
returns the error observed on the last attempt verbatim; the annotation
with operation name and attempt count appears only in the log call
(retry.go lines 71-74), not in the returned error. -/
theorem retry_returns_last_error_verbatim
    (cfg : RetryConfig) (op : String) (fn : Nat → Option String)
    (hN : 1 ≤ cfg.maxAttempts) (hfail : ∀ i, (fn i).isSome = true) :
    (RetryWithBackoff cfg op fn).1 = fn (cfg.maxAttempts - 1) := by
  unfold RetryWithBackoff
  rw [retryLoop_fail cfg fn hfail]
  have h0 : cfg.maxAttempts ≠ 0 := by omega
  simp [h0]

/-- C9 witness: the default policy against a constantly failing operation
returns that error. -/
theorem retry_returns_last_error_verbatim_witness :
    1 ≤ DefaultRetryConfig.maxAttempts ∧
    (RetryWithBackoff DefaultRetryConfig "GET /api/v1/pools"
        (fun _ => some "connection refused")).1 = some "connection refused" :=
  ⟨by norm_num [DefaultRetryConfig],
    retry_returns_last_error_verbatim DefaultRetryConfig "GET /api/v1/pools"
      (fun _ => some "connection refused")
      (by norm_num [DefaultRetryConfig]) (fun _ => rfl)⟩

/-- C4: the health tracker starts healthy; a failed scrape increments
`consecutiveErrors`; once the incremented count reaches 3 (or more) the
tracker becomes unhealthy; and any successful scrape resets
`consecutiveErrors` to 0 and `healthy` to true regardless of the prior
failure count. -/
theorem health_state_transitions :
    (∀ st, (NewScraperHealth st).healthy = true) ∧
    (∀ (h : ScraperHealth) (now d : ℤ) (e : String),
      (RecordScrape h now d (some e)).consecutiveErrors = h.consecutiveErrors + 1) ∧
    (∀ (h : ScraperHealth) (now d : ℤ) (e : String),
      3 ≤ h.consecutiveErrors + 1 → (RecordScrape h now d (some e)).healthy = false) ∧
    (∀ (h : ScraperHealth) (now d : ℤ),
      (RecordScrape h now d none).consecutiveErrors = 0 ∧
        (RecordScrape h now d none).healthy = true) := by
  refine ⟨fun st => rfl, ?_, ?_, ?_⟩
  · intro h now d e
    simp only [RecordScrape]
    split <;> rfl
  · intro h now d e hge
    simp only [RecordScrape]
    split
    · rfl
    · next hlt => exact absurd hge hlt
  · intro h now d
    simp only [RecordScrape]
    constructor <;> (split <;> (try split) <;> rfl)

/-- C4 witness: from a tracker with two consecutive failures, a third error
flips it unhealthy. -/
theorem health_state_transitions_witness :
    3 ≤ ({ NewScraperHealth "rest_api" with consecutiveErrors := 2 } :
        ScraperHealth).consecutiveErrors + 1 ∧
    (RecordScrape { NewScraperHealth "rest_api" with consecutiveErrors := 2 }
        0 5 (some "boom")).healthy = false :=
  ⟨by norm_num [NewScraperHealth],
    health_state_transitions.2.2.1 { NewScraperHealth "rest_api" with consecutiveErrors := 2 }
      0 5 "boom" (by norm_num [NewScraperHealth])⟩

theorem advanceWatermark_cons (wm : ℤ) (r : LogRow) (rows : List LogRow) :
    advanceWatermark wm (r :: rows) =
      advanceWatermark (if r.id > wm then r.id else wm) rows := rfl

theorem le_advanceWatermark : ∀ (rows : List LogRow) (wm : ℤ),
    wm ≤ advanceWatermark wm rows := by
  intro rows
  induction rows with
  | nil => intro wm; simp [advanceWatermark]
  | cons r rows ih =>
    intro wm
    rw [advanceWatermark_cons]
    refine le_trans ?_ (ih _)
    split <;> omega

theorem mem_le_advanceWatermark : ∀ (rows : List LogRow) (wm : ℤ) (r : LogRow),
    r ∈ rows → r.id ≤ advanceWatermark wm rows := by
  intro rows
  induction rows with
  | nil => intro wm r h; cases h
  | cons x rows ih =>
    intro wm r h
    rw [advanceWatermark_cons]
    rcases List.mem_cons.mp h with h0 | h0
    · subst h0
      refine le_trans ?_ (le_advanceWatermark rows _)
      split <;> omega
    · exact ih _ r h0

theorem advanceWatermark_mem_or_eq : ∀ (rows : List LogRow) (wm : ℤ),
    advanceWatermark wm rows ∈ rows.map LogRow.id ∨ advanceWatermark wm rows = wm := by
  intro rows
  induction rows with
  | nil => intro wm; right; rfl
  | cons r rows ih =>
    intro wm
    rw [advanceWatermark_cons]
    rcases ih (if r.id > wm then r.id else wm) with h | h
    · left; exact List.mem_cons_of_mem _ h
    · rw [h]
      split
      · left; exact List.mem_cons_self _ _
      · right; rfl

theorem mem_logQuery_gt (db : List LogRow) (wm : ℤ) (r : LogRow)
    (h : r ∈ logQuery db wm) : wm < r.id := by
  unfold logQuery sortByIdAsc at h
  have h1 := List.mem_of_mem_take h
  have h2 := (List.perm_insertionSort (fun a b : LogRow => a.id ≤ b.id)
    (db.filter (fun r => r.id > wm))).mem_iff.mp h1
  have h3 := (List.mem_filter.mp h2).2
  simpa using h3

/-- C5: the log watermark starts at 0 and never decreases; the query
returns only rows with id strictly above the watermark, ascending, at most
1000; after a scrape the watermark is an upper bound of the scanned row ids
and (when any row was scanned) is itself one of them; and concretely,
scraping a table with rows 5, 7, 9 from a fresh scraper moves the watermark
to 9, after which the next query returns no rows. -/
theorem log_watermark_invariants :
    NewLogScraper.lastScrapedLogID = 0 ∧
    (∀ (db : List LogRow) (s : LogScraperState),
      s.lastScrapedLogID ≤ (logScrape db s).1.lastScrapedLogID) ∧
    (∀ (db : List LogRow) (wm : ℤ) (r : LogRow), r ∈ logQuery db wm → wm < r.id) ∧
    (∀ (db : List LogRow) (wm : ℤ), (logQuery db wm).length ≤ 1000 ∧
      List.Sorted (fun a b : LogRow => a.id ≤ b.id) (logQuery db wm)) ∧
    (∀ (db : List LogRow) (s : LogScraperState),
      (∀ r ∈ (logScrape db s).2, r.id ≤ (logScrape db s).1.lastScrapedLogID) ∧
      ((logScrape db s).2 ≠ [] →
        (logScrape db s).1.lastScrapedLogID ∈ (logScrape db s).2.map LogRow.id)) ∧
    (logScrape [sampleLogRow 5, sampleLogRow 7, sampleLogRow 9] NewLogScraper =
      ({ lastScrapedLogID := 9 },
        [sampleLogRow 5, sampleLogRow 7, sampleLogRow 9]) ∧
      logQuery [sampleLogRow 5, sampleLogRow 7, sampleLogRow 9] 9 = []) := by
  refine ⟨rfl, ?_, mem_logQuery_gt, ?_, ?_, by decide, by decide⟩
  · intro db s
    exact le_advanceWatermark _ _
  · intro db wm
    constructor
    · exact List.length_take_le _ _
    · unfold logQuery sortByIdAsc
      have hs := List.sorted_insertionSort (fun a b : LogRow => a.id ≤ b.id)
        (db.filter (fun r => r.id > wm))
      exact List.Pairwise.sublist (List.take_sublist _ _) hs
  · intro db s
    refine ⟨fun r hr => mem_le_advanceWatermark _ _ r hr, fun hne => ?_⟩
    rcases advanceWatermark_mem_or_eq (logQuery db s.lastScrapedLogID)
        s.lastScrapedLogID with h | h
    · exact h
    · exfalso
      obtain ⟨r, hr⟩ := List.exists_mem_of_ne_nil _ hne
      have h1 := mem_logQuery_gt db s.lastScrapedLogID r hr
      have h2 := mem_le_advanceWatermark (logQuery db s.lastScrapedLogID)
        s.lastScrapedLogID r hr
      rw [h] at h2
      omega

theorem processRunsPass1_skip (pre post : List DAGRun) (r : DAGRun)
    (hr : r.dagRunId = "") :
    processRunsPass1 (pre ++ r :: post) = processRunsPass1 (pre ++ post) := by
  unfold processRunsPass1
  rw [List.foldl_append, List.foldl_append, List.foldl_cons]
  congr 1
  simp [hr]

theorem processRunsPass2_skip (now : ℤ) (pre post : List DAGRun) (r : DAGRun)
    (hr : r.dagRunId = "") :
    processRunsPass2 now (pre ++ r :: post) = processRunsPass2 now (pre ++ post) := by
  unfold processRunsPass2
  rw [List.foldl_append, List.foldl_append, List.foldl_cons]
  congr 1
  simp [hr]

/-- C6: a run record whose `dag_run_id` is the empty string is skipped
entirely by `scrapeDAGMetrics`: the first pass (state counting and duration
records) and the second pass (task-instance fetching, hence all sub-task
records) produce exactly what they produce without that run, and every
per-state count is unchanged. -/
theorem rest_empty_run_id_skipped (now : ℤ) (pre post : List DAGRun) (r : DAGRun)
    (hr : r.dagRunId = "") :
    processRunsPass1 (pre ++ r :: post) = processRunsPass1 (pre ++ post) ∧
    (∀ st, runsByStateCount (pre ++ r :: post) st = runsByStateCount (pre ++ post) st) ∧
    processRunsPass2 now (pre ++ r :: post) = processRunsPass2 now (pre ++ post) := by
  refine ⟨processRunsPass1_skip pre post r hr, ?_,
    processRunsPass2_skip now pre post r hr⟩
  intro st
  unfold runsByStateCount
  rw [processRunsPass1_skip pre post r hr]

/-- C6 witness: an empty-id success run between two well-formed runs
contributes nothing to either pass. -/
theorem rest_empty_run_id_skipped_witness :
    (sampleRun "" "success").dagRunId = "" ∧
    (processRunsPass1 ([sampleRun "run_1" "success"] ++ sampleRun "" "success" ::
        [sampleRun "run_2" "running"]) =
      processRunsPass1 ([sampleRun "run_1" "success"] ++ [sampleRun "run_2" "running"]) ∧
      (∀ st, runsByStateCount ([sampleRun "run_1" "success"] ++ sampleRun "" "success" ::
          [sampleRun "run_2" "running"]) st =
        runsByStateCount ([sampleRun "run_1" "success"] ++ [sampleRun "run_2" "running"]) st) ∧
      processRunsPass2 0 ([sampleRun "run_1" "success"] ++ sampleRun "" "success" ::
          [sampleRun "run_2" "running"]) =
        processRunsPass2 0 ([sampleRun "run_1" "success"] ++ [sampleRun "run_2" "running"])) :=
  ⟨rfl, rest_empty_run_id_skipped 0 [sampleRun "run_1" "success"]
    [sampleRun "run_2" "running"] (sampleRun "" "success") rfl⟩

/-- C7: `Scrape` on the StatsD aggregator does not clear or change any
cell: the table is unchanged, a second `Scrape` with no intervening UDP
input records exactly the same per-cell snapshot points again, and its
emission is the first emission extended by that identical snapshot.
Concretely, after ingesting "requests:5|c", both the first and the second
scrape record the single counter point requests = 5. -/
theorem statsd_scrape_idempotent :
    (∀ (t : StatsTable) (mb : MetricsBuilder),
      (statsdScrape t mb).1 = t ∧
      snapshotPoints (statsdScrape t mb).1 = snapshotPoints t ∧
      (statsdScrape (statsdScrape t mb).1 (statsdScrape t mb).2.1).2.2 =
        (statsdScrape t mb).2.2 ++ snapshotPoints t) ∧
    snapshotPoints (parseAndAggregate [] "requests:5|c") =
      [MPoint.counter "requests" [] 5] := by
  constructor
  · intro t mb
    exact ⟨rfl, rfl, by simp [statsdScrape, Emit, List.append_assoc]⟩
  · norm_num +decide [parseAndAggregate, parseAndAggregateLines, feedLineChars,
      parseLineChars, splitOnChar, splitN2Char, trimChars, parseFloatChars,
      digitsToNat, aggregate, tableFind, tableUpdate, aggKey, tagsInsert,
      applySegment, snapshotPoints, snapshotCell, truncQ,
      show '5'.toNat = 53 from rfl, show '0'.toNat = 48 from rfl]

theorem restCycleFold_general (cycles : List (List MPoint × List MPoint)) :
    ∀ mb : MetricsBuilder,
      cycles.foldl (fun mb c => (restScrape mb c.1 c.2).1) mb =
        mb ++ (cycles.map (fun c => c.1 ++ c.2)).flatten := by
  induction cycles with
  | nil => intro mb; simp
  | cons c cycles ih =>
    intro mb
    rw [List.foldl_cons, ih]
    simp [restScrape, Emit, List.append_assoc]

/-- C10: each adapter records into a single builder created once at
construction and `Emit` returns that same accumulated collection, so the
emission of every scrape contains all points of all earlier cycles: a
scrape's emission equals the whole accumulated collection (previous state
plus this cycle's points), the builder state only ever grows (prefix
order), after any sequence of cycles it is exactly the concatenation of all
cycles' points, and likewise the StatsD scrape only appends to its builder. -/
theorem builder_accumulates_across_scrapes :
    NewRESTAPIScraperMB = ([] : MetricsBuilder) ∧
    (∀ (cycles : List (List MPoint × List MPoint)) (c : List MPoint × List MPoint),
      (restScrape (restCycleFold cycles) c.1 c.2).2 = restCycleFold (cycles ++ [c]) ∧
      restCycleFold cycles <+: restCycleFold (cycles ++ [c])) ∧
    (∀ cycles : List (List MPoint × List MPoint),
      restCycleFold cycles = (cycles.map (fun c => c.1 ++ c.2)).flatten) ∧
    (∀ (t : StatsTable) (mb : MetricsBuilder),
      (statsdScrape t mb).2.1 = mb ++ snapshotPoints t) := by
  refine ⟨rfl, ?_, ?_, fun t mb => rfl⟩
  · intro cycles c
    constructor
    · unfold restCycleFold
      rw [List.foldl_append, List.foldl_cons, List.foldl_nil]
      simp [restScrape, Emit, List.append_assoc]
    · unfold restCycleFold
      rw [List.foldl_append, List.foldl_cons, List.foldl_nil]
      exact ⟨c.1 ++ c.2, by simp [restScrape, List.append_assoc]⟩
  · intro cycles
    unfold restCycleFold NewRESTAPIScraperMB NewMetricsBuilder
    rw [restCycleFold_general]
    simp

theorem parseLineChars_nil : parseLineChars [] = none := rfl

theorem feedLine_of_parse (t : StatsTable) (l : String) (m : StatsDMetric)
    (h : parseStatsDLine l = some m) : feedLine t l = aggregate t m := by
  unfold parseStatsDLine at h
  unfold feedLine feedLineChars
  by_cases hd : l.data = []
  · rw [hd, parseLineChars_nil] at h
    exact Option.noConfusion h
  · rw [if_neg hd, h]

theorem foldl_feedLine_eq (ls : List String) : ∀ (ms : List StatsDMetric) (t : StatsTable),
    ls.map parseStatsDLine = ms.map some → ls.foldl feedLine t = ms.foldl aggregate t := by
  induction ls with
  | nil =>
    intro ms t h
    cases ms with
    | nil => rfl
    | cons m ms => simp at h
  | cons l ls ih =>
    intro ms t h
    cases ms with
    | nil => simp at h
    | cons m ms =>
      simp only [List.map_cons, List.cons.injEq] at h
      rw [List.foldl_cons, List.foldl_cons, feedLine_of_parse t l m h.1, ih ms _ h.2]

theorem tableFind_singleton (k : StatsKey) (c : StatsDMetric) :
    tableFind [(k, c)] k = some c := by
  simp [tableFind, List.find?]

theorem aggregate_nil (m : StatsDMetric) :
    aggregate [] m =
      [(aggKey m,
        { name := m.name, value := m.value, type := m.type, sampleRate := 0,
          tags := m.tags, count := 1, sum := m.value, min := m.value, max := m.value })] := rfl

theorem aggregate_counter_singleton (k : StatsKey) (c m : StatsDMetric)
    (hk : aggKey m = k) (hc : m.type = "c") :
    aggregate [(k, c)] m = [(k, { c with value := c.value + m.value / m.sampleRate })] := by
  simp [aggregate, hk, tableFind_singleton, hc, tableUpdate]

theorem counter_fold (k : StatsKey) :
    ∀ (ms : List StatsDMetric) (c : StatsDMetric),
      (∀ m ∈ ms, m.type = "c" ∧ aggKey m = k) →
      ms.foldl aggregate [(k, c)] =
        [(k, { c with value := c.value + (ms.map (fun m => m.value / m.sampleRate)).sum })] := by
  intro ms
  induction ms with
  | nil => intro c _; simp
  | cons m ms ih =>
    intro c h
    obtain ⟨hc, hk⟩ := h m (List.mem_cons_self m ms)
    rw [List.foldl_cons, aggregate_counter_singleton k c m hk hc,
      ih _ (fun x hx => h x (List.mem_cons_of_mem _ hx))]
    simp [add_assoc]

/-- C2 counterexample: on the first observation of a counter cell the raw
value is stored without dividing by the sample rate (part_001 line 180):
feeding the single line "requests:5|c|@0.5" (sample rate 0.5) yields a cell
value of 5 while the claimed sum over lines of value / sampleRate would be
5 / (1/2) = 10. -/
theorem statsd_counter_first_observation_unscaled :
    (parseStatsDLine "requests:5|c|@0.5").map StatsDMetric.sampleRate = some (1 / 2) ∧
    (tableFind (parseAndAggregate [] "requests:5|c|@0.5") ("requests", [])).map
      StatsDMetric.value = some 5 ∧
    (5 : ℚ) ≠ 5 / (1 / 2) := by
  refine ⟨?_, ?_, by norm_num⟩ <;>
    norm_num +decide [parseAndAggregate, parseAndAggregateLines, feedLineChars,
      parseLineChars, splitOnChar, splitN2Char, trimChars, parseFloatChars,
      digitsToNat, aggregate, tableFind, tableUpdate, aggKey, tagsInsert,
      applySegment, parseStatsDLine,
      show '5'.toNat = 53 from rfl, show '0'.toNat = 48 from rfl]

/-- C2 (amended): for a sequence of counter lines sharing one name and tag
set, the cell's running value equals the raw value of the first line
(stored unscaled at cell creation) plus the sum of value / sampleRate over
all subsequent lines; sampleRate still defaults to 1.0 when the @ segment
is absent (parser initialisation), so "requests:5|c" then "requests:3|c"
still yields 8. The hypothesis that no subsequent line carries sample rate
0 marks the boundary of the rational model of Go float division. -/
theorem statsd_counter_accumulation
    (l0 : String) (ls : List String) (m0 : StatsDMetric) (ms : List StatsDMetric)
    (hparse : (l0 :: ls).map parseStatsDLine = (m0 :: ms).map some)
    (htype : ∀ m ∈ m0 :: ms, m.type = "c")
    (hkey : ∀ m ∈ ms, aggKey m = aggKey m0)
    (_hrate : ∀ m ∈ ms, m.sampleRate ≠ 0) :
    (tableFind ((l0 :: ls).foldl feedLine []) (aggKey m0)).map StatsDMetric.value =
      some (m0.value + (ms.map (fun m => m.value / m.sampleRate)).sum) := by
  simp only [List.map_cons, List.cons.injEq] at hparse
  rw [List.foldl_cons, feedLine_of_parse [] l0 m0 hparse.1,
    foldl_feedLine_eq ls ms _ hparse.2, aggregate_nil,
    counter_fold (aggKey m0) ms _
      (fun m hm => ⟨htype m (List.mem_cons_of_mem _ hm), hkey m hm⟩),
    tableFind_singleton]
  rfl

/-- C2 witness: "requests:5|c" then "requests:3|c" parse to counter metrics
with sample rate 1, and the accumulated cell value is 8. -/
theorem statsd_counter_accumulation_witness :
    (["requests:5|c", "requests:3|c"].map parseStatsDLine =
      [some (counterMetric "requests" 5), some (counterMetric "requests" 3)]) ∧
    (tableFind (["requests:5|c", "requests:3|c"].foldl feedLine [])
        ("requests", [])).map StatsDMetric.value = some 8 := by
  have hparse : ["requests:5|c", "requests:3|c"].map parseStatsDLine =
      [some (counterMetric "requests" 5), some (counterMetric "requests" 3)] := by
    norm_num +decide [parseStatsDLine, parseLineChars, splitOnChar, splitN2Char,
      parseFloatChars, digitsToNat, applySegment, counterMetric,
      show '5'.toNat = 53 from rfl, show '3'.toNat = 51 from rfl,
      show '0'.toNat = 48 from rfl]
  refine ⟨hparse, ?_⟩
  have main := statsd_counter_accumulation "requests:5|c" ["requests:3|c"]
    (counterMetric "requests" 5) [counterMetric "requests" 3]
    hparse (by simp [counterMetric]) (by simp [aggKey, counterMetric])
    (by simp [counterMetric])
  norm_num [aggKey, counterMetric] at main ⊢
  exact main

theorem aggregate_timer_singleton (k : StatsKey) (c m : StatsDMetric)
    (hk : aggKey m = k) (hm : m.type = "ms" ∨ m.type = "h") :
    aggregate [(k, c)] m =
      [(k, { c with
               count := c.count + 1, sum := c.sum + m.value,
               min := if m.value < c.min then m.value else c.min,
               max := if m.value > c.max then m.value else c.max })] := by
  rcases hm with h | h <;>
    simp [aggregate, hk, tableFind_singleton, tableUpdate, h]

theorem timer_fold (k : StatsKey) :
    ∀ (ms : List StatsDMetric) (c : StatsDMetric),
      (∀ m ∈ ms, (m.type = "ms" ∨ m.type = "h") ∧ aggKey m = k) →
      ms.foldl aggregate [(k, c)] =
        [(k, { c with
          count := c.count + (ms.length : ℤ),
          sum := c.sum + (ms.map (fun m => m.value)).sum,
          min := ms.foldl (fun a m => if m.value < a then m.value else a) c.min,
          max := ms.foldl (fun a m => if m.value > a then m.value else a) c.max })] := by
  intro ms
  induction ms with
  | nil => intro c _; simp
  | cons m ms ih =>
    intro c h
    obtain ⟨hm, hk⟩ := h m (List.mem_cons_self m ms)
    rw [List.foldl_cons, aggregate_timer_singleton k c m hk hm,
      ih _ (fun x hx => h x (List.mem_cons_of_mem _ hx))]
    simp only [List.map_cons, List.sum_cons, List.length_cons, List.foldl_cons,
      List.cons.injEq, Prod.mk.injEq, StatsDMetric.mk.injEq, and_true, true_and]
    refine ⟨?_, ?_⟩
    · push_cast
      ring
    · ring

/-- C8: timer cells accumulate count, sum, min and max per observation:
over any sequence of timer lines sharing one name and tag set the final
cell has count = number of lines, sum = total of values, and min/max the
running extrema; a line that fails to parse is dropped individually without
affecting the other lines of its datagram; and concretely the datagram
"latency:10|ms\nbad_line\nlatency:30|ms" yields count=2, sum=40, min=10,
max=30. -/
theorem statsd_timer_accumulation :
    (∀ (l0 : String) (ls : List String) (m0 : StatsDMetric) (ms : List StatsDMetric),
      (l0 :: ls).map parseStatsDLine = (m0 :: ms).map some →
      (∀ m ∈ m0 :: ms, m.type = "ms" ∨ m.type = "h") →
      (∀ m ∈ ms, aggKey m = aggKey m0) →
      (tableFind ((l0 :: ls).foldl feedLine []) (aggKey m0)).map
          (fun c => (c.count, c.sum, c.min, c.max)) =
        some (1 + (ms.length : ℤ), m0.value + (ms.map (fun m => m.value)).sum,
          ms.foldl (fun a m => if m.value < a then m.value else a) m0.value,
          ms.foldl (fun a m => if m.value > a then m.value else a) m0.value)) ∧
    (∀ (t : StatsTable) (pre post : List (List Char)) (cs : List Char),
      parseLineChars cs = none →
      parseAndAggregateLines t (pre ++ cs :: post) =
        parseAndAggregateLines t (pre ++ post)) ∧
    (tableFind (parseAndAggregate [] "latency:10|ms\nbad_line\nlatency:30|ms")
        ("latency", [])).map (fun c => (c.count, c.sum, c.min, c.max)) =
      some ((2 : ℤ), (40 : ℚ), (10 : ℚ), (30 : ℚ)) := by
  refine ⟨?_, ?_, ?_⟩
  · intro l0 ls m0 ms hparse htype hkey
    simp only [List.map_cons, List.cons.injEq] at hparse
    rw [List.foldl_cons, feedLine_of_parse [] l0 m0 hparse.1,
      foldl_feedLine_eq ls ms _ hparse.2, aggregate_nil,
      timer_fold (aggKey m0) ms _
        (fun m hm => ⟨htype m (List.mem_cons_of_mem _ hm), hkey m hm⟩),
      tableFind_singleton]
    rfl
  · intro t pre post cs hnone
    unfold parseAndAggregateLines
    rw [List.foldl_append, List.foldl_append, List.foldl_cons]
    congr 1
    unfold feedLineChars
    split
    · rfl
    · rw [hnone]
  · norm_num +decide [parseAndAggregate, parseAndAggregateLines, feedLineChars,
      parseLineChars, splitOnChar, splitN2Char, trimChars, parseFloatChars,
      digitsToNat, aggregate, tableFind, tableUpdate, aggKey, tagsInsert,
      applySegment,
      show '1'.toNat = 49 from rfl, show '3'.toNat = 51 from rfl,
      show '0'.toNat = 48 from rfl]

/-- C8 witness: "latency:10|ms" then "latency:30|ms" through the parser and
aggregator give count 2, sum 40, min 10, max 30. -/
theorem statsd_timer_accumulation_witness :
    (["latency:10|ms", "latency:30|ms"].map parseStatsDLine =
      [some (timerMetric "latency" 10), some (timerMetric "latency" 30)]) ∧
    (tableFind (["latency:10|ms", "latency:30|ms"].foldl feedLine [])
        ("latency", [])).map (fun c => (c.count, c.sum, c.min, c.max)) =
      some ((2 : ℤ), (40 : ℚ), (10 : ℚ), (30 : ℚ)) := by
  have hparse : ["latency:10|ms", "latency:30|ms"].map parseStatsDLine =
      [some (timerMetric "latency" 10), some (timerMetric "latency" 30)] := by
    norm_num +decide [parseStatsDLine, parseLineChars, splitOnChar, splitN2Char,
      parseFloatChars, digitsToNat, applySegment, timerMetric,
      show '1'.toNat = 49 from rfl, show '3'.toNat = 51 from rfl,
      show '0'.toNat = 48 from rfl]
  refine ⟨hparse, ?_⟩
  have main := statsd_timer_accumulation.1 "latency:10|ms" ["latency:30|ms"]
    (timerMetric "latency" 10) [timerMetric "latency" 30]
    hparse (by simp [timerMetric]) (by simp [aggKey, timerMetric])
  norm_num [aggKey, timerMetric] at main ⊢
  exact main

/-- C5 witness: in the concrete three-row example, the new watermark 9
bounds all scanned ids and is one of them. -/
theorem log_watermark_invariants_witness :
    (∀ r ∈ (logScrape [sampleLogRow 5, sampleLogRow 7, sampleLogRow 9] NewLogScraper).2,
      r.id ≤ (logScrape [sampleLogRow 5, sampleLogRow 7, sampleLogRow 9]
        NewLogScraper).1.lastScrapedLogID) ∧
    ((logScrape [sampleLogRow 5, sampleLogRow 7, sampleLogRow 9] NewLogScraper).2 ≠ [] →
      (logScrape [sampleLogRow 5, sampleLogRow 7, sampleLogRow 9]
          NewLogScraper).1.lastScrapedLogID ∈
        (logScrape [sampleLogRow 5, sampleLogRow 7, sampleLogRow 9]
          NewLogScraper).2.map LogRow.id) :=
  log_watermark_invariants.2.2.2.2.1 [sampleLogRow 5, sampleLogRow 7, sampleLogRow 9]
    NewLogScraper

end Airflow
